import Mathlib

/-!
Verification of the `mlock` secure-buffer package (`mlock.go`).

The Go program is shallowly embedded: bytes are `Nat`, the raw mapping
obtained from the operating system is a `List Nat`, and the five slice
views (`frontGuard`, `padding`, `canary`, `data`, `rearGuard`) are
windows into that list given by the index bounds computed in `Alloc`
(`pi`, `ci`, `di`, `ri`).  A freed buffer (`b.buf = nil` in Go) is
modelled by `mapped = false`; the OS calls themselves (mmap, mprotect,
munmap, ...) are modelled as succeeding, and the trace of calls an
operation issues is reified by `allocCalls` / `freeCalls`.  Operations
that in Go can crash (a write through a view of an unmapped backing, an
index panic) return `Option`, `none` standing for the crash.
-/

namespace Mlock

/-- Error values of the package (`ErrAlreadyFreed`, `ErrDataCorrupted`,
`ErrBufferFull`, `ErrSeekOutOfBounds`, `ErrBufferTooSmall`), together
with the `io` errors that `ReadFrom` deals in: `eof` is `io.EOF`,
`noProgress` is `io.ErrNoProgress`, and `srcErr c` stands for any other
error value produced by the external reader. -/
inductive Err where
  | alreadyFreed
  | dataCorrupted
  | bufferFull
  | seekOutOfBounds
  | bufferTooSmall
  | noProgress
  | eof
  | srcErr (code : Nat)
deriving DecidableEq, Repr

/-- CanarySize (mlock.go line 13). -/
def canarySize : Nat := 16

/-- GuardPages (mlock.go line 16). -/
def guardPages : Nat := 2

/-- Process-wide state established in `init` (mlock.go lines 304-309):
the 16 random canary bytes and the OS page size.  The Go type of the
canary is `[16]byte`, so theorems carry `canary.length = 16`. -/
structure Global where
  canary : List Nat
  pagesize : Nat
deriving DecidableEq, Repr

/-- Buffer (mlock.go lines 25-37).  `backing` is the content of the
original mapping `buf`; `mapped` is `buf != nil` (`Free` sets `buf` to
nil).  The five views are the windows `[0,pi)`, `[pi,ci)`, `[ci,di)`,
`[di,ri)`, `[ri,len)` of `backing`, exactly the indices computed by
`Alloc` (mlock.go lines 68-82).  `i` is the write cursor and `strict`
the padding-check flag. -/
structure Buffer where
  mapped : Bool
  backing : List Nat
  pi : Nat
  ci : Nat
  di : Nat
  ri : Nat
  i : Nat
  strict : Bool
deriving DecidableEq, Repr

/-- View `b.frontGuard = buf[fi:pi]` (mlock.go line 77). -/
def Buffer.frontGuardView (b : Buffer) : List Nat := b.backing.take b.pi

/-- View `b.padding = buf[pi:ci]` (mlock.go line 78). -/
def Buffer.paddingView (b : Buffer) : List Nat := (b.backing.drop b.pi).take (b.ci - b.pi)

/-- View `b.canary = buf[ci:di]` (mlock.go line 79). -/
def Buffer.canaryView (b : Buffer) : List Nat := (b.backing.drop b.ci).take (b.di - b.ci)

/-- View `b.data = buf[di:ri]` (mlock.go line 80). -/
def Buffer.dataView (b : Buffer) : List Nat := (b.backing.drop b.di).take (b.ri - b.di)

/-- View `b.rearGuard = buf[ri:]` (mlock.go line 81). -/
def Buffer.rearGuardView (b : Buffer) : List Nat := b.backing.drop b.ri

/-- Well-formedness of the view bounds: the indices are ordered as laid
out by `Alloc`, the canary window is 16 bytes wide, the windows lie
inside the backing, and the cursor is inside the data window. -/
def Buffer.WF (b : Buffer) : Prop :=
  b.pi ≤ b.ci ∧ b.ci + canarySize = b.di ∧ b.di ≤ b.ri ∧
    b.ri ≤ b.backing.length ∧ b.i ≤ b.ri - b.di

instance (b : Buffer) : Decidable b.WF := by
  unfold Buffer.WF; infer_instance

/-- RequiredBytes (mlock.go lines 294-302): `needed = bytes + CanarySize`;
result `pagesize * (needed/pagesize + GuardPages)`, plus one extra page
when `needed` is not a page multiple. -/
def RequiredBytes (pagesize : Nat) (bytes : Nat) : Nat :=
  let needed := bytes + canarySize
  let result := pagesize * (needed / pagesize + guardPages)
  if needed % pagesize = 0 then result else result + pagesize

/-- Alloc (mlock.go lines 48-97) on the success path, for a positive
request: mmap returns `needed` zero bytes (anonymous mappings are
zero-filled), the view bounds are `ri = len-pagesize`, `di = ri-bytes`,
`ci = di-CanarySize`, `pi = pagesize` (lines 69-73), and the global
canary (a `[16]byte`, so exactly 16 bytes) is copied into the canary
window (line 92).  Cursor 0, strict off. -/
def Alloc (g : Global) (bytes : Nat) : Buffer :=
  let needed := RequiredBytes g.pagesize bytes
  let ri := needed - g.pagesize
  let di := ri - bytes
  let ci := di - canarySize
  { mapped := true
    backing := List.replicate ci 0 ++ g.canary ++ List.replicate (needed - (ci + canarySize)) 0
    pi := g.pagesize
    ci := ci
    di := di
    ri := ri
    i := 0
    strict := false }

/-- canaryCheck (mlock.go lines 270-289): freed means `AlreadyFreed`;
a canary window differing from the global canary (`bytes.Equal`) means
`DataCorrupted`; with `strict` set and non-empty padding, any non-zero
padding byte means `DataCorrupted`; otherwise success. -/
def canaryCheck (g : Global) (b : Buffer) : Option Err :=
  if b.mapped = false then some Err.alreadyFreed
  else if ¬ (b.canaryView = g.canary) then some Err.dataCorrupted
  else if b.strict = false ∨ b.paddingView.length = 0 then none
  else if b.paddingView.any (fun v => v != 0) then some Err.dataCorrupted
  else none

/-- Write (mlock.go lines 170-181): after the integrity check,
`n := copy(b.data[b.i:], buf)` copies `min (len buf) (len data - i)`
bytes of `buf` into the data window at the cursor, the cursor advances
by `n`, and `ErrBufferFull` is returned exactly when `n < len buf`.
Result: (updated buffer, n, error). -/
def Write (g : Global) (b : Buffer) (p : List Nat) : Buffer × Nat × Option Err :=
  match canaryCheck g b with
  | some e => (b, 0, some e)
  | none =>
    let n := min p.length (b.ri - b.di - b.i)
    let b' : Buffer :=
      { b with
        backing := b.backing.take (b.di + b.i) ++ p.take n ++ b.backing.drop (b.di + b.i + n)
        i := b.i + n }
    (b', n, if n < p.length then some Err.bufferFull else none)

/-- Seek (mlock.go lines 152-165) on its non-panicking domain (a
negative index panics in Go, so the position is a `Nat` here): after
the integrity check, an index past `len(b.data)` is
`ErrSeekOutOfBounds` and the cursor is untouched; otherwise the cursor
is set. -/
def Seek (g : Global) (b : Buffer) (pos : Nat) : Buffer × Option Err :=
  match canaryCheck g b with
  | some e => (b, some e)
  | none =>
    if pos > b.ri - b.di then (b, some Err.seekOutOfBounds)
    else ({ b with i := pos }, none)

/-- View (mlock.go lines 142-148): `nil` (here `none`) when the
integrity check fails, otherwise the window `b.data[:b.i]`. -/
def View (g : Global) (b : Buffer) : Option (List Nat) :=
  match canaryCheck g b with
  | some _ => none
  | none => some (b.dataView.take b.i)

/-- Go's `copy(d[i:], d[:i])` (mlock.go line 259): `min i (len d - i)`
bytes of the prefix `d[:i]` are copied to positions starting at `i`. -/
def copyFwd (d : List Nat) (i : Nat) : List Nat :=
  let k := min i (d.length - i)
  d.take i ++ d.take k ++ d.drop (i + k)

/-- Loop of `Zero` (mlock.go line 258): `for i := 1; i < len(d); i *= 2`
doubling the already-zeroed prefix.  `i` at least doubles each
iteration while staying below `len d`, so the iteration count is below
`len d`; the structural `fuel` argument (instantiated with `d.length`
by `zeroSpread`) is therefore never exhausted, which
`zeroSpreadAux_all_zero` proves. -/
def zeroSpreadAux : Nat → List Nat → Nat → List Nat
  | 0, d, _ => d
  | fuel + 1, d, i =>
    if 0 < i ∧ i < d.length then zeroSpreadAux fuel (copyFwd d i) (i * 2) else d

/-- Doubling loop of `Zero` started as in the source at `i = 1`
generalized over the start index. -/
def zeroSpread (d : List Nat) (i : Nat) : List Nat :=
  zeroSpreadAux d.length d i

/-- Zero (mlock.go lines 254-262): `b.data[0] = 0`, then the doubling
copy loop, then `b.i = 0`.  There is no integrity check.  The guard is
the machine-level condition for the first store to execute: the backing
must still be mapped (else the store to the unmapped page faults) and
the data window must be a non-empty in-bounds window of the backing
(else the index panics / the view is not a window).  `none` models that
crash. -/
def Zero (b : Buffer) : Option Buffer :=
  if b.mapped = true ∧ b.di < b.ri ∧ b.ri ≤ b.backing.length then
    some { b with
            backing := b.backing.take b.di ++ zeroSpread (b.dataView.set 0 0) 1 ++
              b.backing.drop b.ri
            i := 0 }
  else none

/-- Free (mlock.go lines 240-250): `AlreadyFreed` when `buf` is already
nil; otherwise `b.Zero()`, `Munmap` (modelled as succeeding), and
`b.buf = nil` (`mapped := false`).  The outer `none` is the crash of
the unguarded `Zero` call (impossible for a well-formed live buffer). -/
def Free (b : Buffer) : Option (Buffer × Option Err) :=
  if b.mapped = false then some (b, some Err.alreadyFreed)
  else
    match Zero b with
    | none => none
    | some bz => some ({ bz with mapped := false }, none)

/-- Strict (mlock.go lines 266-268). -/
def Strict (b : Buffer) : Buffer := { b with strict := true }

/-- progressThresh (mlock.go line 183). -/
def progressThresh : Nat := 10

/-- Result of one `r.Read(b.data[b.i:])` call: the byte count and the
error value.  The external reader is modelled by its trace of results;
the bytes it deposits are not tracked (the properties verified here
concern counts, the cursor and errors). -/
structure ReadRes where
  n : Nat
  err : Option Err
deriving DecidableEq, Repr

/-- Loop of ReadFrom (mlock.go lines 193-218): each iteration reads,
advances the cursor and the total, counts consecutive zero-byte reads
in `zeros` (reset by any progress), and then: no error — stop with
`io.ErrNoProgress` once `zeros > progressThresh`, else continue; `io.EOF`
— return the total with no error; any other error — return the total
with that error.  `none` is the model artifact of the trace running out
before the loop decides (the Go loop would keep calling the reader). -/
def readLoop (b : Buffer) (zeros : Nat) (total : Nat) :
    List ReadRes → Option (Buffer × Nat × Option Err)
  | [] => none
  | r :: rest =>
    let b' : Buffer := { b with i := b.i + r.n }
    let total' := total + r.n
    let zeros' := if r.n = 0 then zeros + 1 else 0
    match r.err with
    | none =>
      if zeros' > progressThresh then some (b', total', some Err.noProgress)
      else readLoop b' zeros' total' rest
    | some Err.eof => some (b', total', none)
    | some e => some (b', total', some e)

/-- ReadFrom (mlock.go lines 188-219): the integrity check, then the
read loop with `zeros = 0` and `total = 0`. -/
def ReadFrom (g : Global) (b : Buffer) (src : List ReadRes) :
    Option (Buffer × Nat × Option Err) :=
  match canaryCheck g b with
  | some e => some (b, 0, some e)
  | none => readLoop b 0 0 src

/-- Realloc (mlock.go lines 103-133).  `size = 0` stands for the Go
panic on a non-positive size (`none`).  After the integrity check on
the source, a fresh buffer is allocated and the live prefix
`b.data[:b.i]` written into it.  The deferred function (lines 115-123)
reads the named return values: on ANY error it frees the new buffer and
returns nil in its place, so the `return r, ErrBufferTooSmall` at line
127 actually yields `(nil, ErrBufferTooSmall)`.  On success the source
is freed and the new buffer returned.  Result: (final state of the
source buffer, returned buffer pointer, error). -/
def Realloc (g : Global) (b : Buffer) (size : Nat) :
    Option (Buffer × Option Buffer × Option Err) :=
  if size = 0 then none
  else
    match canaryCheck g b with
    | some e => some (b, none, some e)
    | none =>
      match Write g (Alloc g size) (b.dataView.take b.i) with
      | (r1, _, some Err.bufferFull) =>
        (Free r1).map (fun _ => (b, none, some Err.bufferTooSmall))
      | (r1, _, some e) =>
        (Free r1).map (fun _ => (b, none, some e))
      | (r1, _, none) =>
        match Free b with
        | none => none
        | some (bf, none) => some (bf, some r1, none)
        | some (bf, some fe) => (Free r1).map (fun _ => (bf, none, some fe))

/-- OS calls visible in the source. -/
inductive OsCall where
  | mmap (len : Nat)
  | mlock
  | munlock
  | mprotectNone (len : Nat)
  | munmap
deriving DecidableEq, Repr

/-- Sequence of OS calls issued by `Alloc` on its success path
(mlock.go lines 54, 84, 88): one `Mmap` of `RequiredBytes` bytes and
two `Mprotect(PROT_NONE)` of one page each.  No other syscall appears
in the function body. -/
def allocCalls (g : Global) (bytes : Nat) : List OsCall :=
  [OsCall.mmap (RequiredBytes g.pagesize bytes),
   OsCall.mprotectNone g.pagesize,
   OsCall.mprotectNone g.pagesize]

/-- Sequence of OS calls issued by `Free` (mlock.go lines 240-250):
nothing when already freed, otherwise exactly one `Munmap` (line 245;
`Zero` is a plain memory write, not a syscall).  No other syscall
appears in the function body. -/
def freeCalls (b : Buffer) : List OsCall :=
  if b.mapped = false then [] else [OsCall.munmap]

/-- Concrete global state for witnesses: page size 16, a fixed 16-byte
canary. -/
def gEx : Global :=
  { canary := [1, 2, 3, 4, 5, 6, 7, 8, 9, 10, 11, 12, 13, 14, 15, 16]
    pagesize := 16 }

/-- Concrete live buffer: `Alloc gEx 4` followed by a write of three
bytes (cursor 3). -/
def bEx : Buffer := (Write gEx (Alloc gEx 4) [7, 8, 9]).1

/-- Concrete released buffer: the state of `bEx` after a successful
`Free`. -/
def bFreedEx : Buffer := ((Free bEx).getD (bEx, none)).1

/-- Concrete corrupted buffer: `bEx` with the first canary byte (index
`ci = 28` of the backing) overwritten. -/
def bCorruptEx : Buffer := { bEx with backing := bEx.backing.set 28 99 }

/-- C6: for every requestedCapacity > 0, `RequiredBytes` equals
`pageSize * (q + 2)` when `r = 0` and `pageSize * (q + 2) + pageSize`
otherwise, where `q` and `r` are the quotient and remainder of
`(requestedCapacity + 16) / pageSize`; the result is a positive
multiple of the page size and at least
`requestedCapacity + 16 + 2 * pageSize`. -/
theorem requiredBytes_spec (ps c : Nat) (hps : 0 < ps) (hc : 0 < c) :
    (RequiredBytes ps c =
      if (c + 16) % ps = 0 then ps * ((c + 16) / ps + 2)
      else ps * ((c + 16) / ps + 2) + ps) ∧
    ps ∣ RequiredBytes ps c ∧ 0 < RequiredBytes ps c ∧
    c + 16 + 2 * ps ≤ RequiredBytes ps c := by
  have hqr := Nat.div_add_mod (c + 16) ps
  have hrlt : (c + 16) % ps < ps := Nat.mod_lt _ hps
  simp only [RequiredBytes, canarySize, guardPages]
  refine ⟨trivial, ?_, ?_, ?_⟩
  · split
    · exact dvd_mul_right ps _
    · have : ps * ((c + 16) / ps + 2) + ps = ps * ((c + 16) / ps + 3) := by ring
      rw [this]; exact dvd_mul_right ps _
  · split <;>
    · have h2 : ps * ((c + 16) / ps + 2) = ps * ((c + 16) / ps) + ps * 2 := by ring
      omega
  · split <;>
    · have h2 : ps * ((c + 16) / ps + 2) = ps * ((c + 16) / ps) + ps * 2 := by ring
      omega

/-- Witness for `requiredBytes_spec` at `pagesize = 16`,
`capacity = 4`. -/
theorem requiredBytes_spec_witness :
    (0 < 16 ∧ 0 < 4) ∧
    ((RequiredBytes 16 4 =
        if (4 + 16) % 16 = 0 then 16 * ((4 + 16) / 16 + 2)
        else 16 * ((4 + 16) / 16 + 2) + 16) ∧
      16 ∣ RequiredBytes 16 4 ∧ 0 < RequiredBytes 16 4 ∧
      4 + 16 + 2 * 16 ≤ RequiredBytes 16 4) :=
  ⟨by decide, requiredBytes_spec 16 4 (by decide) (by decide)⟩

/-- C5: `canaryCheck` reports `AlreadyFreed` on a released buffer;
on a live buffer it reports `DataCorrupted` exactly when the canary
window differs from the global canary, or strict mode is on and a
non-empty padding window holds a non-zero byte; with strict mode off it
succeeds exactly when the canary matches. -/
theorem canaryCheck_spec (g : Global) (b : Buffer) :
    (b.mapped = false → canaryCheck g b = some Err.alreadyFreed) ∧
    (b.mapped = true →
      (canaryCheck g b = some Err.dataCorrupted ↔
        b.canaryView ≠ g.canary ∨
          (b.strict = true ∧ b.paddingView ≠ [] ∧ ∃ x ∈ b.paddingView, x ≠ 0))) ∧
    (b.mapped = true → b.strict = false →
      (canaryCheck g b = none ↔ b.canaryView = g.canary)) := by
  refine ⟨fun hm => by simp [canaryCheck, hm], fun hm => ?_, fun hm hs => ?_⟩
  · by_cases hcv : b.canaryView = g.canary
    · by_cases hsp : b.strict = false ∨ b.paddingView.length = 0
      · have hr : b.strict = true → ¬ b.paddingView = [] → ∀ x ∈ b.paddingView, x = 0 := by
          intro hst hne
          rcases hsp with hs' | hl
          · simp [hst] at hs'
          · exact absurd (List.length_eq_zero.mp hl) hne
        simp only [canaryCheck, hm, hcv, hsp]
        simp [hcv]
        exact hr
      · push_neg at hsp
        have hs : b.strict = true := by
          cases hst : b.strict
          · exact absurd hst hsp.1
          · rfl
        have hne : b.paddingView ≠ [] := by
          intro h
          exact hsp.2 (by simp [h])
        by_cases ha : b.paddingView.any (fun v => v != 0)
        · have : ∃ x ∈ b.paddingView, x ≠ 0 := by
            simpa [List.any_eq_true] using ha
          simp [canaryCheck, hm, hcv, hsp.1, hsp.2, ha, hs, hne, this]
        · have : ¬ ∃ x ∈ b.paddingView, x ≠ 0 := by
            simpa [List.any_eq_true] using ha
          simp [canaryCheck, hm, hcv, hsp.1, hsp.2, ha, hcv, this]
    · simp [canaryCheck, hm, hcv]
  · by_cases hcv : b.canaryView = g.canary <;>
      simp [canaryCheck, hm, hs, hcv]

/-- Witness for `canaryCheck_spec`: freed, corrupted and clean concrete
buffers. -/
theorem canaryCheck_spec_witness :
    canaryCheck gEx bFreedEx = some Err.alreadyFreed ∧
    canaryCheck gEx bCorruptEx = some Err.dataCorrupted ∧
    canaryCheck gEx bEx = none :=
  ⟨(canaryCheck_spec gEx bFreedEx).1 (by decide),
   ((canaryCheck_spec gEx bCorruptEx).2.1 (by decide)).mpr (by decide),
   ((canaryCheck_spec gEx bEx).2.2 (by decide) (by decide)).mpr (by decide)⟩

/-- C2 (code bug): the trace of OS calls `Alloc` issues is exactly one
mmap followed by two `Mprotect(PROT_NONE)` — it contains no
memory-lock call — and the trace `Free` issues on a live buffer is
exactly one munmap — no unlock call precedes it.  The package name and
the `Buffer` doc comment ("a securely mlock-ed buffer") promise the
lock, so the missing `Mlock`/`Munlock` pair is a defect of the code,
not of the claim. -/
theorem no_mlock_syscalls :
    allocCalls gEx 4 =
      [OsCall.mmap 64, OsCall.mprotectNone 16, OsCall.mprotectNone 16] ∧
    freeCalls bEx = [OsCall.munmap] ∧
    (allocCalls gEx 4).contains OsCall.mlock = false ∧
    (allocCalls gEx 4).contains OsCall.munlock = false ∧
    (freeCalls bEx).contains OsCall.munlock = false := by
  decide

/-- Helper: a window `[a, a+k)` of two lists agreeing on a prefix of
length `m ≥ a + k` is the same. -/
lemma seg_of_take_agree {l₁ l₂ : List Nat} {m a k : Nat}
    (hag : l₁.take m = l₂.take m) (hk : a + k ≤ m) :
    (l₁.drop a).take k = (l₂.drop a).take k := by
  have h : ∀ l : List Nat, ((l.take m).drop a).take k = (l.drop a).take k := by
    intro l
    rw [List.drop_take, List.take_take]
    congr 1
    omega
  rw [← h l₁, ← h l₂, hag]

/-- Helper: two lists agreeing from index `m` on agree from any later
index `a`. -/
lemma seg_of_drop_agree {l₁ l₂ : List Nat} {m a : Nat}
    (hag : l₁.drop m = l₂.drop m) (hm : m ≤ a) :
    l₁.drop a = l₂.drop a := by
  have h : ∀ l : List Nat, l.drop a = (l.drop m).drop (a - m) := by
    intro l
    rw [List.drop_drop]
    congr 1
    omega
  rw [h l₁, h l₂, hag]

/-- Helper: dropping within a window of a list. -/
lemma window_drop (l : List Nat) (a k c : Nat) :
    ((l.drop a).take k).drop c = (l.drop (a + c)).take (k - c) := by
  rw [List.drop_take, List.drop_drop]

/-- Helper: the data view of a well-formed buffer has length
`ri - di`, the length of `b.data` in the source. -/
lemma dataView_length (b : Buffer) (hwf : b.WF) : b.dataView.length = b.ri - b.di := by
  obtain ⟨h1, h2, h3, h4, h5⟩ := hwf
  simp only [Buffer.dataView, List.length_take, List.length_drop]
  omega

/-- Byte count of `copy(b.data[b.i:], p)` (mlock.go line 175). -/
def writeCount (b : Buffer) (p : List Nat) : Nat :=
  min p.length (b.ri - b.di - b.i)

/-- Helper: how `Write` transforms the backing when the integrity check
passes: the first `di + i` bytes agree with the old backing, the bytes
from `di + i + n` on agree with the old backing, the bytes from `di + i`
on are the copied prefix of `p` followed by the old tail, and the
length is unchanged; the bound fields and flags are unchanged and the
cursor advances by `n = writeCount`. -/
lemma write_agree (g : Global) (b : Buffer) (p : List Nat)
    (hwf : b.WF) (hchk : canaryCheck g b = none) :
    (Write g b p).1.backing.take (b.di + b.i) = b.backing.take (b.di + b.i) ∧
    (Write g b p).1.backing.drop (b.di + b.i + writeCount b p) =
      b.backing.drop (b.di + b.i + writeCount b p) ∧
    (Write g b p).1.backing.drop (b.di + b.i) =
      p.take (writeCount b p) ++ b.backing.drop (b.di + b.i + writeCount b p) ∧
    (Write g b p).1.backing.length = b.backing.length ∧
    (Write g b p).1.pi = b.pi ∧ (Write g b p).1.ci = b.ci ∧
    (Write g b p).1.di = b.di ∧ (Write g b p).1.ri = b.ri ∧
    (Write g b p).1.mapped = b.mapped ∧ (Write g b p).1.strict = b.strict ∧
    (Write g b p).1.i = b.i + writeCount b p ∧
    (Write g b p).2.1 = writeCount b p ∧
    (Write g b p).2.2 =
      (if writeCount b p < p.length then some Err.bufferFull else none) := by
  obtain ⟨h1, h2, h3, h4, h5⟩ := hwf
  have hn1 : min p.length (b.ri - b.di - b.i) ≤ p.length := Nat.min_le_left _ _
  have hn2 : min p.length (b.ri - b.di - b.i) ≤ b.ri - b.di - b.i := Nat.min_le_right _ _
  have hA : (b.backing.take (b.di + b.i)).length = b.di + b.i := by
    simp only [List.length_take]
    omega
  have hP : (p.take (min p.length (b.ri - b.di - b.i))).length =
      min p.length (b.ri - b.di - b.i) := by
    simp only [List.length_take]
    omega
  have hAP : (b.backing.take (b.di + b.i) ++
        p.take (min p.length (b.ri - b.di - b.i))).length =
      b.di + b.i + min p.length (b.ri - b.di - b.i) := by
    simp only [List.length_append, hA, hP]
  simp only [Write, hchk, writeCount]
  refine ⟨?_, ?_, ?_, ?_, ?_⟩
  · rw [List.append_assoc, List.take_left' hA]
  · rw [List.drop_left' hAP]
  · rw [List.append_assoc, List.drop_left' hA]
  · simp only [List.length_append, hA, hP, List.length_drop]
    omega
  · simp

/-- C4: on a live, uncorrupted, well-formed buffer, `Write p` copies
exactly `n = min (len p) (len data - cursor)` bytes — the written
window equals the prefix of `p` — advances the cursor by `n`, returns
`n`, and returns `ErrBufferFull` exactly when `n < len p` (no error
otherwise). -/
theorem write_spec (g : Global) (b : Buffer) (p : List Nat)
    (hwf : b.WF) (hchk : canaryCheck g b = none) :
    (Write g b p).2.1 = min p.length (b.dataView.length - b.i) ∧
    (Write g b p).1.i = b.i + (Write g b p).2.1 ∧
    ((Write g b p).1.dataView.drop b.i).take (Write g b p).2.1 =
      p.take (Write g b p).2.1 ∧
    (Write g b p).2.2 =
      (if (Write g b p).2.1 < p.length then some Err.bufferFull else none) := by
  obtain ⟨hfront, hrear, hmid, hlen, hpi, hci, hdi, hri, hmap, hstr, hcur, hn, herr⟩ :=
    write_agree g b p hwf hchk
  have hdl := dataView_length b hwf
  obtain ⟨h1, h2, h3, h4, h5⟩ := hwf
  have hn1 : writeCount b p ≤ p.length := Nat.min_le_left _ _
  have hn2 : writeCount b p ≤ b.ri - b.di - b.i := Nat.min_le_right _ _
  refine ⟨by rw [hn, hdl]; rfl, by rw [hcur, hn], ?_, by rw [herr, hn]⟩
  have hmid' : ((Write g b p).1.dataView.drop b.i).take (writeCount b p) =
      p.take (writeCount b p) := by
    unfold Buffer.dataView
    rw [hdi, hri, window_drop, hmid, List.take_take,
      Nat.min_eq_left (by omega : writeCount b p ≤ b.ri - b.di - b.i),
      List.take_append_of_le_length (by rw [List.length_take]; omega),
      List.take_take, Nat.min_self]
  rw [hn]
  exact hmid'

/-- C10: on a live, uncorrupted, well-formed buffer, `Write p` changes
only the data bytes in `[cursor, cursor + n)` and the cursor: the data
prefix below the cursor, the data bytes past `cursor + n`, the canary,
padding and guard views, and the strict flag are unchanged. -/
theorem write_frame (g : Global) (b : Buffer) (p : List Nat)
    (hwf : b.WF) (hchk : canaryCheck g b = none) :
    (Write g b p).1.dataView.take b.i = b.dataView.take b.i ∧
    (Write g b p).1.dataView.drop (b.i + (Write g b p).2.1) =
      b.dataView.drop (b.i + (Write g b p).2.1) ∧
    (Write g b p).1.canaryView = b.canaryView ∧
    (Write g b p).1.paddingView = b.paddingView ∧
    (Write g b p).1.frontGuardView = b.frontGuardView ∧
    (Write g b p).1.rearGuardView = b.rearGuardView ∧
    (Write g b p).1.strict = b.strict := by
  obtain ⟨hfront, hrear, hmid, hlen, hpi, hci, hdi, hri, hmap, hstr, hcur, hn, herr⟩ :=
    write_agree g b p hwf hchk
  obtain ⟨h1, h2, h3, h4, h5⟩ := hwf
  have hn1 : writeCount b p ≤ p.length := Nat.min_le_left _ _
  have hn2 : writeCount b p ≤ b.ri - b.di - b.i := Nat.min_le_right _ _
  refine ⟨?_, ?_, ?_, ?_, ?_, ?_, hstr⟩
  · unfold Buffer.dataView
    rw [hdi, hri, List.take_take, Nat.min_eq_left (by omega : b.i ≤ b.ri - b.di),
      List.take_take, Nat.min_eq_left (by omega : b.i ≤ b.ri - b.di)]
    exact seg_of_take_agree hfront (by omega)
  · unfold Buffer.dataView
    rw [hdi, hri, hn, window_drop, window_drop]
    have hd : b.di + (b.i + writeCount b p) = b.di + b.i + writeCount b p := by omega
    rw [hd, hrear]
  · unfold Buffer.canaryView
    rw [hci, hdi]
    exact seg_of_take_agree hfront (by omega)
  · unfold Buffer.paddingView
    rw [hpi, hci]
    exact seg_of_take_agree hfront (by omega)
  · unfold Buffer.frontGuardView
    rw [hpi]
    have h := seg_of_take_agree (a := 0) (k := b.pi) hfront (by omega)
    simpa using h
  · unfold Buffer.rearGuardView
    rw [hri]
    exact seg_of_drop_agree hrear (by omega)

/-- Witness for `write_spec` on the concrete live buffer `bEx` with a
two-byte payload. -/
theorem write_spec_witness :
    (bEx.WF ∧ canaryCheck gEx bEx = none) ∧
    ((Write gEx bEx [1, 2]).2.1 = min (List.length [1, 2]) (bEx.dataView.length - bEx.i) ∧
      (Write gEx bEx [1, 2]).1.i = bEx.i + (Write gEx bEx [1, 2]).2.1 ∧
      ((Write gEx bEx [1, 2]).1.dataView.drop bEx.i).take (Write gEx bEx [1, 2]).2.1 =
        List.take (Write gEx bEx [1, 2]).2.1 [1, 2] ∧
      (Write gEx bEx [1, 2]).2.2 =
        (if (Write gEx bEx [1, 2]).2.1 < List.length [1, 2] then some Err.bufferFull
          else none)) :=
  ⟨⟨by decide, by decide⟩, write_spec gEx bEx [1, 2] (by decide) (by decide)⟩

/-- Witness for `write_frame` on the concrete live buffer `bEx` with a
two-byte payload. -/
theorem write_frame_witness :
    (bEx.WF ∧ canaryCheck gEx bEx = none) ∧
    ((Write gEx bEx [1, 2]).1.dataView.take bEx.i = bEx.dataView.take bEx.i ∧
      (Write gEx bEx [1, 2]).1.dataView.drop (bEx.i + (Write gEx bEx [1, 2]).2.1) =
        bEx.dataView.drop (bEx.i + (Write gEx bEx [1, 2]).2.1) ∧
      (Write gEx bEx [1, 2]).1.canaryView = bEx.canaryView ∧
      (Write gEx bEx [1, 2]).1.paddingView = bEx.paddingView ∧
      (Write gEx bEx [1, 2]).1.frontGuardView = bEx.frontGuardView ∧
      (Write gEx bEx [1, 2]).1.rearGuardView = bEx.rearGuardView ∧
      (Write gEx bEx [1, 2]).1.strict = bEx.strict) :=
  ⟨⟨by decide, by decide⟩, write_frame gEx bEx [1, 2] (by decide) (by decide)⟩

/-- Helper: `copyFwd` preserves the length of the list (the copy stays
inside the slice). -/
lemma copyFwd_length (d : List Nat) (i : Nat) (h : i ≤ d.length) :
    (copyFwd d i).length = d.length := by
  simp only [copyFwd, List.length_append, List.length_take, List.length_drop]
  omega

/-- Helper: the doubling loop of `Zero` turns the whole list to zeros
whenever the prefix up to the current index is already zero and the
fuel covers the remaining distance (the index at least doubles each
iteration, so `d.length` fuel always suffices). -/
lemma zeroSpreadAux_all_zero :
    ∀ (fuel : Nat) (d : List Nat) (i : Nat),
      d.length - i ≤ fuel → 0 < i →
      d.take i = List.replicate (min i d.length) 0 →
      zeroSpreadAux fuel d i = List.replicate d.length 0 := by
  intro fuel
  induction fuel with
  | zero =>
    intro d i hfuel hpos hinv
    have hle : d.length ≤ i := by omega
    rw [List.take_of_length_le hle, Nat.min_eq_right hle] at hinv
    simpa only [zeroSpreadAux] using hinv
  | succ fuel ih =>
    intro d i hfuel hpos hinv
    by_cases hlt : i < d.length
    · have hk1 : min i (d.length - i) ≤ i := Nat.min_le_left _ _
      have hk2 : min i (d.length - i) ≤ d.length - i := Nat.min_le_right _ _
      have hlen := copyFwd_length d i (Nat.le_of_lt hlt)
      have htake_i : d.take i = List.replicate i 0 := by
        rw [hinv, Nat.min_eq_left (Nat.le_of_lt hlt)]
      have htake_k : d.take (min i (d.length - i)) =
          List.replicate (min i (d.length - i)) 0 := by
        have h := List.take_take (min i (d.length - i)) i d
        rw [Nat.min_eq_left hk1] at h
        rw [← h, htake_i, List.take_replicate, Nat.min_eq_left hk1]
      have hcf : copyFwd d i =
          List.replicate (i + min i (d.length - i)) 0 ++
            d.drop (i + min i (d.length - i)) := by
        simp only [copyFwd]
        rw [htake_i, htake_k, List.replicate_add]
      have hinv' : (copyFwd d i).take (i * 2) =
          List.replicate (min (i * 2) (copyFwd d i).length) 0 := by
        rw [hlen, hcf]
        rcases Nat.le_total i (d.length - i) with hcase | hcase
        · rw [Nat.min_eq_left hcase]
          rw [List.take_append_of_le_length
            (by rw [List.length_replicate]; omega)]
          rw [List.take_replicate]
          congr 1
          omega
        · rw [Nat.min_eq_right hcase]
          have hik : i + (d.length - i) = d.length := by omega
          rw [hik, List.drop_length, List.append_nil, List.take_replicate]
      have hres := ih (copyFwd d i) (i * 2) (by rw [hlen]; omega) (by omega) hinv'
      rw [hlen] at hres
      simp only [zeroSpreadAux, if_pos (And.intro hpos hlt)]
      exact hres
    · have hle : d.length ≤ i := by omega
      rw [List.take_of_length_le hle, Nat.min_eq_right hle] at hinv
      simp only [zeroSpreadAux]
      rw [if_neg (fun h : 0 < i ∧ i < d.length => hlt h.2)]
      exact hinv

/-- Helper: on a live well-formed buffer with non-empty data, `Zero`
succeeds and replaces the data window of the backing with zeros,
resetting the cursor and leaving every other field alone. -/
lemma zero_ok (b : Buffer) (hm : b.mapped = true) (hwf : b.WF) (hd : b.di < b.ri) :
    Zero b = some
      { b with
        backing := b.backing.take b.di ++ List.replicate (b.ri - b.di) 0 ++
          b.backing.drop b.ri
        i := 0 } := by
  obtain ⟨h1, h2, h3, h4, h5⟩ := hwf
  have hdl : b.dataView.length = b.ri - b.di := by
    simp only [Buffer.dataView, List.length_take, List.length_drop]
    omega
  have hset_len : (b.dataView.set 0 0).length = b.ri - b.di := by
    rw [List.length_set, hdl]
  have hne : b.dataView ≠ [] := by
    intro h
    rw [h] at hdl
    simp only [List.length_nil] at hdl
    omega
  obtain ⟨x, t, hxt⟩ := List.exists_cons_of_ne_nil hne
  have hinv : (b.dataView.set 0 0).take 1 =
      List.replicate (min 1 (b.dataView.set 0 0).length) 0 := by
    rw [hxt, List.set_cons_zero]
    simp
  have hzero : zeroSpread (b.dataView.set 0 0) 1 = List.replicate (b.ri - b.di) 0 := by
    rw [zeroSpread,
      zeroSpreadAux_all_zero ((b.dataView.set 0 0).length) (b.dataView.set 0 0) 1
        (by omega) (by omega) hinv,
      hset_len]
  rw [Zero, if_pos (And.intro hm (And.intro hd h4)), hzero]

/-- C7: on a live, well-formed buffer with non-empty data, `Zero` —
which is the doubling-copy loop `zeroSpread` started after clearing the
first byte — makes every byte of the data region zero and the cursor 0,
and leaves the canary, padding and guard regions unchanged. -/
theorem zero_spec (b : Buffer) (hm : b.mapped = true) (hwf : b.WF) (hd : b.di < b.ri) :
    ∃ b', Zero b = some b' ∧
      b'.dataView = List.replicate (b.ri - b.di) 0 ∧
      b'.i = 0 ∧
      b'.canaryView = b.canaryView ∧
      b'.paddingView = b.paddingView ∧
      b'.frontGuardView = b.frontGuardView ∧
      b'.rearGuardView = b.rearGuardView := by
  have hz := zero_ok b hm hwf hd
  obtain ⟨h1, h2, h3, h4, h5⟩ := hwf
  have hAlen : (b.backing.take b.di).length = b.di := by
    rw [List.length_take]
    omega
  have hAD : (b.backing.take b.di ++ List.replicate (b.ri - b.di) 0).length = b.ri := by
    rw [List.length_append, hAlen, List.length_replicate]
    omega
  refine ⟨_, hz, ?_, rfl, ?_, ?_, ?_, ?_⟩
  · show ((b.backing.take b.di ++ List.replicate (b.ri - b.di) 0 ++
        b.backing.drop b.ri).drop b.di).take (b.ri - b.di) =
      List.replicate (b.ri - b.di) 0
    rw [List.append_assoc, List.drop_left' hAlen,
      List.take_append_of_le_length (by rw [List.length_replicate]),
      List.take_replicate, Nat.min_self]
  · show ((b.backing.take b.di ++ List.replicate (b.ri - b.di) 0 ++
        b.backing.drop b.ri).drop b.ci).take (b.di - b.ci) =
      b.canaryView
    have hfront : (b.backing.take b.di ++ List.replicate (b.ri - b.di) 0 ++
        b.backing.drop b.ri).take b.di = b.backing.take b.di := by
      rw [List.append_assoc, List.take_left' hAlen]
    exact seg_of_take_agree hfront (by omega)
  · show ((b.backing.take b.di ++ List.replicate (b.ri - b.di) 0 ++
        b.backing.drop b.ri).drop b.pi).take (b.ci - b.pi) =
      b.paddingView
    have hfront : (b.backing.take b.di ++ List.replicate (b.ri - b.di) 0 ++
        b.backing.drop b.ri).take b.di = b.backing.take b.di := by
      rw [List.append_assoc, List.take_left' hAlen]
    exact seg_of_take_agree hfront (by omega)
  · show (b.backing.take b.di ++ List.replicate (b.ri - b.di) 0 ++
        b.backing.drop b.ri).take b.pi = b.frontGuardView
    have hfront : (b.backing.take b.di ++ List.replicate (b.ri - b.di) 0 ++
        b.backing.drop b.ri).take b.di = b.backing.take b.di := by
      rw [List.append_assoc, List.take_left' hAlen]
    have h := seg_of_take_agree (a := 0) (k := b.pi) hfront (by omega)
    simpa using h
  · show (b.backing.take b.di ++ List.replicate (b.ri - b.di) 0 ++
        b.backing.drop b.ri).drop b.ri = b.rearGuardView
    exact List.drop_left' hAD

/-- Witness for `zero_spec` on the concrete live buffer `bEx`. -/
theorem zero_spec_witness :
    (bEx.mapped = true ∧ bEx.WF ∧ bEx.di < bEx.ri) ∧
    (∃ b', Zero bEx = some b' ∧
      b'.dataView = List.replicate (bEx.ri - bEx.di) 0 ∧
      b'.i = 0 ∧
      b'.canaryView = bEx.canaryView ∧
      b'.paddingView = bEx.paddingView ∧
      b'.frontGuardView = bEx.frontGuardView ∧
      b'.rearGuardView = bEx.rearGuardView) :=
  ⟨⟨by decide, by decide, by decide⟩, zero_spec bEx (by decide) (by decide) (by decide)⟩

/-- C9: `Free` runs no canary or padding check: on any live well-formed
buffer with non-empty data — however its canary bytes compare to the
global canary — it zeroes the data region, marks the buffer released,
and succeeds; and no `Free` result ever carries `ErrDataCorrupted`. -/
theorem free_no_integrity_check (b : Buffer) (hm : b.mapped = true)
    (hwf : b.WF) (hd : b.di < b.ri) :
    Free b = some
      ({ b with
          backing := b.backing.take b.di ++ List.replicate (b.ri - b.di) 0 ++
            b.backing.drop b.ri
          i := 0
          mapped := false }, none) ∧
    (∀ b₀ out, Free b₀ = some out → out.2 ≠ some Err.dataCorrupted) := by
  constructor
  · have hnm : ¬ (b.mapped = false) := by simp [hm]
    simp only [Free, if_neg hnm, zero_ok b hm hwf hd]
  · intro b₀ out hout
    by_cases hmap : b₀.mapped = false
    · simp only [Free, if_pos hmap] at hout
      obtain rfl := Option.some.inj hout
      simp
    · simp only [Free, if_neg hmap] at hout
      cases hz : Zero b₀ with
      | none =>
        rw [hz] at hout
        exact Option.noConfusion (show (none : Option (Buffer × Option Err)) = some out from hout)
      | some bz =>
        rw [hz] at hout
        have hout' : some (({ bz with mapped := false } : Buffer), (none : Option Err)) =
            some out := hout
        obtain rfl := Option.some.inj hout'
        simp

/-- Witness for `free_no_integrity_check` on the concrete corrupted
buffer `bCorruptEx`, whose canary no longer matches (every accessor
reports `DataCorrupted` on it, yet `Free` succeeds). -/
theorem free_no_integrity_check_witness :
    (bCorruptEx.mapped = true ∧ bCorruptEx.WF ∧ bCorruptEx.di < bCorruptEx.ri ∧
      canaryCheck gEx bCorruptEx = some Err.dataCorrupted) ∧
    (Free bCorruptEx = some
      ({ bCorruptEx with
          backing := bCorruptEx.backing.take bCorruptEx.di ++
            List.replicate (bCorruptEx.ri - bCorruptEx.di) 0 ++
            bCorruptEx.backing.drop bCorruptEx.ri
          i := 0
          mapped := false }, none) ∧
      (∀ b₀ out, Free b₀ = some out → out.2 ≠ some Err.dataCorrupted)) :=
  ⟨⟨by decide, by decide, by decide, by decide⟩,
   free_no_integrity_check bCorruptEx (by decide) (by decide) (by decide)⟩

/-- C3 (counterexample): `bFreedEx` is a buffer on which `Free`
succeeded, and `Zero` on it is the crash `none` — the unguarded store
`b.data[0] = 0` dereferences the data view of the unmapped former
backing — so `Zero` on a released buffer neither reports the
already-freed condition (its Go signature has no error result at all)
nor leaves the former region untouched, refuting the claim for the
`Zero` operation. -/
theorem zero_on_freed_cex :
    Free bEx = some (bFreedEx, none) ∧ Zero bFreedEx = none := by
  constructor
  · decide
  · decide

/-- C3 (amended): on a released buffer, every operation other than
`Zero` — `View`, `Seek`, `Write`, `ReadFrom`, `Realloc`, `Free` —
deterministically reports the already-freed condition (`View` by
returning the nil view) and leaves the buffer state untouched. -/
theorem freed_ops_report (g : Global) (b : Buffer) (hf : b.mapped = false) :
    View g b = none ∧
    (∀ pos, Seek g b pos = (b, some Err.alreadyFreed)) ∧
    (∀ p, Write g b p = (b, 0, some Err.alreadyFreed)) ∧
    (∀ src, ReadFrom g b src = some (b, 0, some Err.alreadyFreed)) ∧
    (∀ size, 0 < size → Realloc g b size = some (b, none, some Err.alreadyFreed)) ∧
    Free b = some (b, some Err.alreadyFreed) := by
  have hchk : canaryCheck g b = some Err.alreadyFreed := by
    rw [canaryCheck, if_pos hf]
  refine ⟨?_, fun pos => ?_, fun p => ?_, fun src => ?_, fun size hs => ?_, ?_⟩
  · simp only [View, hchk]
  · simp only [Seek, hchk]
  · simp only [Write, hchk]
  · simp only [ReadFrom, hchk]
  · simp only [Realloc, hchk]
    rw [if_neg (by omega : ¬ size = 0)]
  · simp only [Free, if_pos hf]

/-- Witness for `freed_ops_report` on the concrete released buffer
`bFreedEx`. -/
theorem freed_ops_report_witness :
    bFreedEx.mapped = false ∧
    View gEx bFreedEx = none ∧
    Write gEx bFreedEx [1] = (bFreedEx, 0, some Err.alreadyFreed) ∧
    Free bFreedEx = some (bFreedEx, some Err.alreadyFreed) :=
  ⟨by decide,
   (freed_ops_report gEx bFreedEx (by decide)).1,
   (freed_ops_report gEx bFreedEx (by decide)).2.2.1 [1],
   (freed_ops_report gEx bFreedEx (by decide)).2.2.2.2.2⟩

/-- Helper: one loop iteration of `ReadFrom` on an error-free read of
`n > 0` bytes advances the cursor and total and resets the zero-read
counter. -/
lemma readLoop_progress_step (bc : Buffer) (zeros total n : Nat) (rest : List ReadRes)
    (hn : ¬ n = 0) :
    readLoop bc zeros total (⟨n, none⟩ :: rest) =
      readLoop { bc with i := bc.i + n } 0 (total + n) rest := by
  simp only [readLoop]
  rw [if_neg hn, if_neg (by decide : ¬ (0 > progressThresh))]

/-- Helper: one loop iteration of `ReadFrom` on an error-free zero-byte
read below the threshold just counts it. -/
lemma readLoop_zero_step (bc : Buffer) (zeros total : Nat) (rest : List ReadRes)
    (hz : zeros < progressThresh) :
    readLoop bc zeros total (⟨0, none⟩ :: rest) =
      readLoop bc (zeros + 1) total rest := by
  simp only [readLoop]
  rw [if_pos trivial, if_neg (by omega : ¬ (zeros + 1 > progressThresh))]
  rfl

/-- Helper: an error-free zero-byte read at the threshold stops the
loop with `io.ErrNoProgress`. -/
lemma readLoop_stop (bc : Buffer) (zeros total : Nat) (rest : List ReadRes)
    (hz : progressThresh ≤ zeros) :
    readLoop bc zeros total (⟨0, none⟩ :: rest) =
      some (bc, total, some Err.noProgress) := by
  simp only [readLoop]
  rw [if_pos trivial, if_pos (by omega : zeros + 1 > progressThresh)]
  rfl

/-- Helper: eleven consecutive error-free zero-byte reads starting from
a fresh counter abort the loop with `io.ErrNoProgress`, whatever the
source would have produced afterwards. -/
lemma readLoop_noProgress (bc : Buffer) (total : Nat) (rest : List ReadRes) :
    readLoop bc 0 total (List.replicate (progressThresh + 1) ⟨0, none⟩ ++ rest) =
      some (bc, total, some Err.noProgress) := by
  show readLoop bc 0 total
    (⟨0, none⟩ :: ⟨0, none⟩ :: ⟨0, none⟩ :: ⟨0, none⟩ :: ⟨0, none⟩ :: ⟨0, none⟩ ::
      ⟨0, none⟩ :: ⟨0, none⟩ :: ⟨0, none⟩ :: ⟨0, none⟩ :: ⟨0, none⟩ :: rest) =
    some (bc, total, some Err.noProgress)
  rw [readLoop_zero_step bc 0 total _ (by decide),
    readLoop_zero_step bc 1 total _ (by decide),
    readLoop_zero_step bc 2 total _ (by decide),
    readLoop_zero_step bc 3 total _ (by decide),
    readLoop_zero_step bc 4 total _ (by decide),
    readLoop_zero_step bc 5 total _ (by decide),
    readLoop_zero_step bc 6 total _ (by decide),
    readLoop_zero_step bc 7 total _ (by decide),
    readLoop_zero_step bc 8 total _ (by decide),
    readLoop_zero_step bc 9 total _ (by decide),
    readLoop_stop bc 10 total rest (by decide)]

/-- C8: after a passing integrity check, `ReadFrom` runs the read loop,
and the loop: terminates normally with the accumulated total when the
source signals end-of-input; surfaces any other source error unchanged
with the accumulated total, aborting immediately; continues (resetting
the stall counter on progress, counting stalls otherwise); and returns
the accumulated total with the no-progress error as soon as the source
has returned zero new bytes, without error or end-of-input, on more
than ten consecutive attempts. -/
theorem readFrom_spec (g : Global) (b : Buffer) (hchk : canaryCheck g b = none) :
    (∀ src, ReadFrom g b src = readLoop b 0 0 src) ∧
    (∀ (bc : Buffer) (zeros total n : Nat) (rest : List ReadRes),
      readLoop bc zeros total (⟨n, some Err.eof⟩ :: rest) =
        some ({ bc with i := bc.i + n }, total + n, none)) ∧
    (∀ (bc : Buffer) (zeros total n c : Nat) (rest : List ReadRes),
      readLoop bc zeros total (⟨n, some (Err.srcErr c)⟩ :: rest) =
        some ({ bc with i := bc.i + n }, total + n, some (Err.srcErr c))) ∧
    (∀ (bc : Buffer) (zeros total n : Nat) (rest : List ReadRes), ¬ n = 0 →
      readLoop bc zeros total (⟨n, none⟩ :: rest) =
        readLoop { bc with i := bc.i + n } 0 (total + n) rest) ∧
    (∀ (bc : Buffer) (zeros total : Nat) (rest : List ReadRes), zeros < progressThresh →
      readLoop bc zeros total (⟨0, none⟩ :: rest) =
        readLoop bc (zeros + 1) total rest) ∧
    (∀ (bc : Buffer) (total : Nat) (rest : List ReadRes),
      readLoop bc 0 total (List.replicate (progressThresh + 1) ⟨0, none⟩ ++ rest) =
        some (bc, total, some Err.noProgress)) := by
  refine ⟨fun src => by simp only [ReadFrom, hchk], fun bc zeros total n rest => rfl,
    fun bc zeros total n c rest => rfl,
    fun bc zeros total n rest hn => readLoop_progress_step bc zeros total n rest hn,
    fun bc zeros total rest hz => readLoop_zero_step bc zeros total rest hz,
    fun bc total rest => readLoop_noProgress bc total rest⟩

/-- Witness for `readFrom_spec` on the concrete buffer `bEx`: a single
two-byte read ending in end-of-input. -/
theorem readFrom_spec_witness :
    canaryCheck gEx bEx = none ∧
    ReadFrom gEx bEx [⟨2, some Err.eof⟩] =
      some ({ bEx with i := bEx.i + 2 }, 0 + 2, none) := by
  have h := readFrom_spec gEx bEx (by decide)
  exact ⟨by decide, by rw [h.1]; exact h.2.1 bEx 0 0 2 []⟩

/-- Helper: lower bound of `RequiredBytes` used to place the view
bounds of `Alloc`. -/
lemma requiredBytes_ge (ps c : Nat) (hps : 0 < ps) :
    c + 16 + 2 * ps ≤ RequiredBytes ps c := by
  have hqr := Nat.div_add_mod (c + 16) ps
  have hrlt : (c + 16) % ps < ps := Nat.mod_lt _ hps
  have h2 : ps * ((c + 16) / ps + 2) = ps * ((c + 16) / ps) + ps * 2 := by ring
  simp only [RequiredBytes, canarySize, guardPages]
  split <;> omega

/-- Helper: the buffer built by `Alloc` for a positive request is live,
well-formed, has a matching canary, strict mode off, cursor 0, a data
window of exactly the requested width, and a backing of `RequiredBytes`
bytes. -/
lemma alloc_props (g : Global) (bytes : Nat) (hps : 0 < g.pagesize)
    (hb : 0 < bytes) (hcan : g.canary.length = 16) :
    (Alloc g bytes).mapped = true ∧
    (Alloc g bytes).WF ∧
    (Alloc g bytes).canaryView = g.canary ∧
    (Alloc g bytes).strict = false ∧
    (Alloc g bytes).i = 0 ∧
    (Alloc g bytes).ri - (Alloc g bytes).di = bytes ∧
    (Alloc g bytes).backing.length = RequiredBytes g.pagesize bytes := by
  have hge := requiredBytes_ge g.pagesize bytes hps
  have hcs : canarySize = 16 := rfl
  have hri : (Alloc g bytes).ri = RequiredBytes g.pagesize bytes - g.pagesize := rfl
  have hdi : (Alloc g bytes).di =
      RequiredBytes g.pagesize bytes - g.pagesize - bytes := rfl
  have hci : (Alloc g bytes).ci =
      RequiredBytes g.pagesize bytes - g.pagesize - bytes - canarySize := rfl
  have hpi : (Alloc g bytes).pi = g.pagesize := rfl
  have hbk : (Alloc g bytes).backing =
      List.replicate (RequiredBytes g.pagesize bytes - g.pagesize - bytes - canarySize) 0 ++
        g.canary ++
        List.replicate (RequiredBytes g.pagesize bytes -
          ((RequiredBytes g.pagesize bytes - g.pagesize - bytes - canarySize) +
            canarySize)) 0 := rfl
  have hlen : (Alloc g bytes).backing.length = RequiredBytes g.pagesize bytes := by
    rw [hbk]
    simp only [List.length_append, List.length_replicate, hcan, hcs]
    omega
  refine ⟨rfl, ?_, ?_, rfl, rfl, ?_, hlen⟩
  · unfold Buffer.WF
    rw [hpi, hci, hdi, hri, hlen, hcs]
    have hi0 : (Alloc g bytes).i = 0 := rfl
    rw [hi0]
    omega
  · unfold Buffer.canaryView
    rw [hbk, hci, hdi, hcs]
    have h16 : RequiredBytes g.pagesize bytes - g.pagesize - bytes -
        (RequiredBytes g.pagesize bytes - g.pagesize - bytes - 16) = 16 := by
      omega
    rw [h16, List.append_assoc,
      List.drop_left' (by rw [List.length_replicate]),
      List.take_left' hcan]
  · rw [hri, hdi]
    omega

/-- Helper: `Free` on a live buffer whose `Zero` succeeds marks it
released and succeeds. -/
lemma free_of_zero (b bz : Buffer) (hm : b.mapped = true) (hzz : Zero b = some bz) :
    Free b = some ({ bz with mapped := false }, none) := by
  simp only [Free, if_neg (by simp [hm] : ¬ (b.mapped = false)), hzz]

/-- C1 (amended): on a live, uncorrupted, well-formed buffer with
written prefix of length `cursor`, a `Realloc` to a positive capacity
smaller than that prefix reports `ErrBufferTooSmall`, but the deferred
cleanup (mlock.go lines 115-123) has already freed the newly allocated
buffer and replaced it by nil, so the caller receives a nil buffer
alongside the error (the source buffer is left untouched, and the new
buffer is not leaked because it was released before returning, not
because it is handed to the caller). -/
theorem realloc_small_frees_and_returns_nil (g : Global) (b : Buffer) (size : Nat)
    (hps : 0 < g.pagesize) (hcan : g.canary.length = 16)
    (hwf : b.WF) (hchk : canaryCheck g b = none) (hs : 0 < size) (hlt : size < b.i) :
    Realloc g b size = some (b, none, some Err.bufferTooSmall) := by
  obtain ⟨hm0, hwf0, hcv0, hstr0, hi0, hcap0, hlen0⟩ := alloc_props g size hps hs hcan
  have hchk0 : canaryCheck g (Alloc g size) = none := by
    rw [canaryCheck, if_neg (by simp [hm0]),
      if_neg (fun hcond => hcond hcv0), if_pos (Or.inl hstr0)]
  have hplen : (b.dataView.take b.i).length = b.i := by
    have h5 := hwf.2.2.2.2
    rw [List.length_take, dataView_length b hwf]
    omega
  obtain ⟨hfrontW, hrearW, hmidW, hlenW, hpiW, hciW, hdiW, hriW, hmapW, hstrW,
    hcurW, hnW, herrW⟩ :=
    write_agree g (Alloc g size) (b.dataView.take b.i) hwf0 hchk0
  have hwc : writeCount (Alloc g size) (b.dataView.take b.i) = size := by
    rw [writeCount, hplen, hi0, Nat.sub_zero, hcap0,
      Nat.min_eq_right (Nat.le_of_lt hlt)]
  have herr : (Write g (Alloc g size) (b.dataView.take b.i)).2.2 =
      some Err.bufferFull := by
    rw [herrW, hwc, hplen, if_pos hlt]
  have hm1 : (Write g (Alloc g size) (b.dataView.take b.i)).1.mapped = true := by
    rw [hmapW]
    exact hm0
  have hwf1 : (Write g (Alloc g size) (b.dataView.take b.i)).1.WF := by
    obtain ⟨w1, w2, w3, w4, w5⟩ := hwf0
    unfold Buffer.WF
    rw [hpiW, hciW, hdiW, hriW, hlenW, hcurW, hwc, hi0, hcap0]
    exact ⟨w1, w2, w3, w4, by omega⟩
  have hd1 : (Write g (Alloc g size) (b.dataView.take b.i)).1.di <
      (Write g (Alloc g size) (b.dataView.take b.i)).1.ri := by
    obtain ⟨w1, w2, w3, w4, w5⟩ := hwf0
    rw [hdiW, hriW]
    omega
  have hzz := zero_ok (Write g (Alloc g size) (b.dataView.take b.i)).1 hm1 hwf1 hd1
  have hz := free_of_zero _ _ hm1 hzz
  have hWeq : Write g (Alloc g size) (b.dataView.take b.i) =
      ((Write g (Alloc g size) (b.dataView.take b.i)).1,
        (Write g (Alloc g size) (b.dataView.take b.i)).2.1,
        some Err.bufferFull) := by
    rw [← herr]
  simp only [Realloc, hchk]
  rw [if_neg (by omega : ¬ size = 0), hWeq]
  show (Free (Write g (Alloc g size) (b.dataView.take b.i)).1).map
      (fun _ => (b, none, some Err.bufferTooSmall)) =
    some (b, none, some Err.bufferTooSmall)
  rw [hz]
  rfl

/-- Witness for `realloc_small_frees_and_returns_nil` on the concrete
buffer `bEx` (cursor 3) shrunk to capacity 2. -/
theorem realloc_small_frees_and_returns_nil_witness :
    (0 < gEx.pagesize ∧ gEx.canary.length = 16 ∧ bEx.WF ∧
      canaryCheck gEx bEx = none ∧ 0 < 2 ∧ 2 < bEx.i) ∧
    Realloc gEx bEx 2 = some (bEx, none, some Err.bufferTooSmall) :=
  ⟨⟨by decide, by decide, by decide, by decide, by decide, by decide⟩,
   realloc_small_frees_and_returns_nil gEx bEx 2 (by decide) (by decide) (by decide)
     (by decide) (by decide) (by decide)⟩

/-- C1 (counterexample): on the concrete live buffer `bEx` (integrity
check passing, cursor 3) a `Realloc` to capacity 2 returns
`ErrBufferTooSmall` together with a nil buffer — the second component
of the result is `none`, not a live buffer — because the deferred
cleanup freed the new allocation and overwrote the named return value;
the claim requires a non-nil, still-allocated buffer alongside the
error. -/
theorem realloc_small_returns_nil_cex :
    canaryCheck gEx bEx = none ∧ 0 < (2 : Nat) ∧ 2 < bEx.i ∧
    Realloc gEx bEx 2 = some (bEx, none, some Err.bufferTooSmall) := by
  refine ⟨by decide, by decide, by decide, by decide⟩

end Mlock
